import Mathlib

/-!
# Verification of the customer-segment CSV export pipeline

Shallow embedding of `src/main.go` (a Go CLI that fetches customer segment
members over GraphQL and exports them to CSV), together with the parts of its
libraries the program's observable behaviour depends on:

* `shopspring/decimal`: `Decimal.Round` / `Decimal.StringFixed`, which the
  exporter uses to format monetary amounts with two decimal digits;
* `encoding/csv`: the `csv.Writer` field-quoting and row encoding (with the
  default configuration used by the program: comma separator, `UseCRLF=false`).

Go's `big.Int.DivMod` is Euclidean division, which matches Lean's `/` and `%`
on `Int`; `big.Int.Quo` truncates towards zero, which is `Int.tdiv`.

Side effects (the HTTP round trip, JSON decoding, file creation) are made
explicit: the network outcome and the JSON decoder are parameters, and the
pipeline result records which effects happened (file created, rows written).
-/

/-- `shopspring/decimal`'s representation: the number `value * 10 ^ exp`. -/
structure Decimal where
  value : Int
  exp : Int
deriving DecidableEq, Repr

/-- `Decimal.rescale` from `shopspring/decimal`: change the exponent to `e`,
truncating towards zero (via `big.Int.Quo`) when digits are dropped. -/
def Decimal.rescale (d : Decimal) (e : Int) : Decimal :=
  if d.exp = e then ⟨d.value, d.exp⟩
  else if e > d.exp then ⟨Int.tdiv d.value ((10 : Int) ^ (e - d.exp).toNat), e⟩
  else ⟨d.value * (10 : Int) ^ (d.exp - e).toNat, e⟩

/-- `Decimal.Round(places)` from `shopspring/decimal`: truncate to
`places + 1` digits, add `sign(d) * 5`, then divide by ten rounding towards
zero (`big.Int.DivMod` is Euclidean, so the Go code patches the negative case
by adding one when the remainder is non-zero). Net effect: round half away
from zero. -/
def Decimal.round (d : Decimal) (places : Nat) : Decimal :=
  if d.exp = -(places : Int) then d
  else
    let t := d.rescale (-(places : Int) - 1)
    let u := if t.value < 0 then t.value - 5 else t.value + 5
    let q := u / 10
    let m := u % 10
    let q2 := if q < 0 ∧ m ≠ 0 then q + 1 else q
    ⟨q2, t.exp + 1⟩

/-- The string form of a `Decimal` whose exponent is `-2`, as produced by
`shopspring/decimal`'s `string(trimTrailingZeros=false)`: decimal digits of
the absolute value split two places before the end, zero-padded, with a `-`
prefix for negative values. (After `Round(2)` the exponent is always `-2`,
so this is the whole of `string` that `StringFixed(2)` can reach.) -/
def Decimal.stringExpNeg2 (v : Int) : String :=
  let str := (toString v.natAbs).data
  let parts : List Char × List Char :=
    if str.length > 2 then (str.take (str.length - 2), str.drop (str.length - 2))
    else (['0'], List.replicate (2 - str.length) '0' ++ str)
  ⟨(if v < 0 then ['-'] else []) ++ parts.1 ++ '.' :: parts.2⟩

/-- `Decimal.StringFixed(2)` from `shopspring/decimal`, as used at
`src/main.go:211`: round to two places, then print with exactly two decimal
digits. -/
def Decimal.stringFixed2 (d : Decimal) : String :=
  Decimal.stringExpNeg2 (d.round 2).value

/-- Modelled from the spec's words, for comparison with the code: rounding a
value of exactly three decimal digits (`v * 10⁻³`) to two decimal digits with
the round-half-up rule in the decimal-library sense (ties go away from zero,
as in Java's `RoundingMode.HALF_UP` and Python's `decimal.ROUND_HALF_UP`). -/
def specRoundHalfUp (v : Int) : Int :=
  if v < 0 then -((-v + 5) / 10) else (v + 5) / 10

example : (Decimal.stringFixed2 ⟨12345, -3⟩) = "12.35" := by decide
example : (Decimal.stringFixed2 ⟨-12345, -3⟩) = "-12.35" := by decide
example : (Decimal.stringFixed2 ⟨100, 0⟩) = "100.00" := by decide

/-- C4: the amount column is formatted with exactly two decimal digits under
one consistent rounding rule, namely round-half-up in the decimal-library
sense (ties away from zero): on every value with exactly three decimal
digits — in particular every value ending in `.xx5` — the code's
`StringFixed(2)` rounds exactly as `specRoundHalfUp`, and the amount `12.345`
formats as `"12.35"`. -/
theorem stringFixed_rounds_half_up :
    (∀ v : Int, Decimal.round ⟨v, -3⟩ 2 = ⟨specRoundHalfUp v, -2⟩)
    ∧ Decimal.stringFixed2 ⟨12345, -3⟩ = "12.35" := by
  refine ⟨fun v => ?_, by decide⟩
  simp only [Decimal.round, Decimal.rescale, specRoundHalfUp]
  norm_num [Decimal.mk.injEq]
  split_ifs <;> omega

/-! ## Data model (`src/main.go:20-56`) -/

/-- `GraphQLError` (`src/main.go:49-51`): one application-level error with
its message. -/
structure GraphQLError where
  message : String
deriving DecidableEq, Repr

/-- `DefaultEmail` (`src/main.go:31-33`). -/
structure DefaultEmail where
  emailAddress : String
deriving DecidableEq, Repr

/-- `MonetaryAmount` (`src/main.go:35-38`). -/
structure MonetaryAmount where
  amount : Decimal
  currencyCode : String
deriving DecidableEq, Repr

/-- `Node` (`src/main.go:24-29`): the decoded customer record; the email is
optional (`*DefaultEmail`, JSON `omitempty`). -/
structure Node where
  id : String
  displayName : String
  defaultEmailAddress : Option DefaultEmail
  amountSpent : MonetaryAmount
deriving DecidableEq, Repr

/-- `CustomerSegmentMember` (`src/main.go:20-22`). -/
structure CustomerSegmentMember where
  node : Node
deriving DecidableEq, Repr

/-- The `customerSegmentMembers` object inside `GraphQLResponse.Data`
(`src/main.go:42-44`). -/
structure CustomerSegmentMembers where
  edges : List CustomerSegmentMember
deriving DecidableEq, Repr

/-- The anonymous `Data` struct of `GraphQLResponse` (`src/main.go:41-45`). -/
structure GraphQLData where
  customerSegmentMembers : CustomerSegmentMembers
deriving DecidableEq, Repr

/-- `GraphQLResponse` (`src/main.go:40-47`): decoded envelope with records
and application errors. -/
structure GraphQLResponse where
  data : GraphQLData
  errors : List GraphQLError
deriving DecidableEq, Repr

/-! ## Query builder (`src/main.go:92-97`)

The CLI flag values consumed by `fetchAndExportCustomers` (the spec's
`FetchParameters`): `c.Int("first")`, `c.String("query")`,
`c.String("sortKey")`, `c.Bool("reverse")`, plus `c.String("output")` used by
the exporter. -/

structure FetchParameters where
  first : Int
  query : String
  sortKey : String
  reverse : Bool
  output : String
deriving DecidableEq, Repr

/-- A value stored in the `map[string]interface{}` of GraphQL variables:
the program only ever stores an int, a string, or a bool. -/
inductive GoValue
  | intV (n : Int)
  | strV (s : String)
  | boolV (b : Bool)
deriving DecidableEq, Repr

/-- The `variables` map literal of `src/main.go:92-97`, as an association
list (the four keys are distinct, so lookup semantics coincide with the Go
map). Each value is the corresponding flag value, unchanged. -/
def buildVariables (p : FetchParameters) : List (String × GoValue) :=
  [("first", .intV p.first), ("query", .strV p.query),
   ("sortKey", .strV p.sortKey), ("reverse", .boolV p.reverse)]

/-! ## API client (`executeGraphQLQuery`, `src/main.go:138-174`)

The network call and JSON decoding are external effects; the embedding takes
the outcome of `client.Do` (including whether `ctx.Err()` was
`context.DeadlineExceeded` at that point) and the JSON decoder as
parameters. `json.Marshal` of the request and `http.NewRequestWithContext`
cannot fail on the values this program builds, so those two early-return
branches are not modelled. -/

/-- The classified failures of `executeGraphQLQuery`, one constructor per
`fmt.Errorf` site, carrying that site's format arguments:
* `timeout` — `"operation timed out after 5 seconds"` (`src/main.go:157`);
* `transportFailed` — `"HTTP request failed: %w"` (`src/main.go:159`);
* `httpStatus` — `"HTTP %d: %s"` (`src/main.go:165`);
* `decodeFailed` — `"failed to decode response: %w"` (`src/main.go:170`). -/
inductive ClientErr
  | timeout
  | transportFailed (cause : String)
  | httpStatus (status : Nat) (body : List Char)
  | decodeFailed (cause : String)
deriving DecidableEq, Repr

/-- Outcome of `client.Do` (`src/main.go:154`): either an error (with the
flag telling whether the context deadline had been exceeded, which is what
`src/main.go:156` inspects), or an HTTP response with status and body. -/
inductive NetOutcome
  | doFailed (ctxDeadlineExceeded : Bool) (cause : String)
  | gotResponse (status : Nat) (body : List Char)
deriving DecidableEq, Repr

/-- `executeGraphQLQuery` (`src/main.go:138-174`): classify the transport
outcome; on a non-200 status return the status and raw body without touching
the decoder; on a 200 status decode the body into a `GraphQLResponse`. -/
def executeGraphQLQuery (decode : List Char → Except String GraphQLResponse) :
    NetOutcome → Except ClientErr GraphQLResponse
  | .doFailed ctxDeadlineExceeded cause =>
    if ctxDeadlineExceeded then .error .timeout
    else .error (.transportFailed cause)
  | .gotResponse status body =>
    if status ≠ 200 then .error (.httpStatus status body)
    else
      match decode body with
      | .error cause => .error (.decodeFailed cause)
      | .ok resp => .ok resp

/-! ## CSV exporter (`exportToCSV`, `src/main.go:176-220`)

A row is a list of fields, a field a list of characters. The cancellation
signal is the `select` poll of `ctx.Done()` at `src/main.go:199-202`: poll
`k` is the check made before writing data row `k`. Writes to the underlying
`csv.Writer` cannot fail on an in-memory buffer, so the `writer.Write` error
branches are not modelled; the rows handed to the writer are recorded
explicitly. -/

/-- The failure of `exportToCSV`'s cancellation branch:
`"operation timed out during CSV export"` (`src/main.go:201`). -/
inductive ExportErr
  | cancelled
deriving DecidableEq, Repr

deriving instance DecidableEq for Except

/-- The fixed header row (`src/main.go:193`). -/
def headerRow : List (List Char) :=
  [("ID" : String).data, ("Display Name" : String).data,
   ("Email Address" : String).data, ("Amount Spent" : String).data,
   ("Currency Code" : String).data]

/-- The email flattening of `src/main.go:203-206`: empty string when
`DefaultEmailAddress` is nil, the stored address otherwise. -/
def emailOf (c : CustomerSegmentMember) : String :=
  match c.node.defaultEmailAddress with
  | none => ""
  | some e => e.emailAddress

/-- The record row built at `src/main.go:207-213`. -/
def recordRow (c : CustomerSegmentMember) : List (List Char) :=
  [c.node.id.data, c.node.displayName.data, (emailOf c).data,
   (c.node.amountSpent.amount.stringFixed2).data,
   c.node.amountSpent.currencyCode.data]

/-- The `for` loop of `src/main.go:198-218`: before each row poll the
cancellation signal; if it fires, stop with the Cancelled error; otherwise
write the row and continue. Returns the loop's result and the data rows
written, in order. -/
def exportLoop (cancelled : Nat → Bool) :
    List CustomerSegmentMember → Nat → Except ExportErr Unit × List (List (List Char))
  | [], _ => (.ok (), [])
  | c :: rest, k =>
    if cancelled k then (.error .cancelled, [])
    else
      let r := exportLoop cancelled rest (k + 1)
      (r.1, recordRow c :: r.2)

/-- The observable outcome of `exportToCSV`: its return value, whether
`os.Create` was invoked on the output file, and the rows written (header
included). -/
structure ExportOutcome where
  result : Except ExportErr Unit
  fileCreated : Bool
  rows : List (List (List Char))
deriving DecidableEq, Repr

/-- `exportToCSV` (`src/main.go:176-220`): create the output file unless the
filename is empty (stdout), write the header unconditionally, then run the
row loop with the cancellation polls starting at 0. -/
def exportToCSV (cancelled : Nat → Bool) (customers : List CustomerSegmentMember)
    (filename : String) : ExportOutcome :=
  let r := exportLoop cancelled customers 0
  { result := r.1, fileCreated := filename != "", rows := headerRow :: r.2 }

/-! ## Pipeline (`fetchAndExportCustomers`, `src/main.go:85-136`) -/

/-- The failures of `fetchAndExportCustomers`, one constructor per return
site, carrying that site's arguments:
* `configMissing` — `"SHOPIFY_DOMAIN and SHOPIFY_ACCESS_TOKEN must be set"`
  (`src/main.go:89`);
* `queryFailed` — `"GraphQL query failed: %w"` (`src/main.go:123`);
* `graphqlErrors` — `"GraphQL errors: %v"` carrying `resp.Errors`, the list
  of application error messages (`src/main.go:127`);
* `exportFailed` — `"failed to export CSV: %w"` (`src/main.go:131`). -/
inductive FetchErr
  | configMissing
  | queryFailed (cause : ClientErr)
  | graphqlErrors (errs : List GraphQLError)
  | exportFailed (cause : ExportErr)
deriving DecidableEq, Repr

/-- The observable outcome of one `fetchAndExportCustomers` invocation: the
returned value (the exported record count on success, from
`src/main.go:134`), whether `exportToCSV` was invoked, whether the output
file was created, and the rows written. -/
structure RunOutcome where
  result : Except FetchErr Nat
  exportCalled : Bool
  fileCreated : Bool
  rows : List (List (List Char))
deriving DecidableEq, Repr

/-- `fetchAndExportCustomers` (`src/main.go:85-136`): require both
environment values, execute the query, fail on non-empty `resp.Errors`
before any export, otherwise export and report the record count. -/
def fetchAndExportCustomers (shopifyDomain accessToken : String)
    (p : FetchParameters) (decode : List Char → Except String GraphQLResponse)
    (outcome : NetOutcome) (cancelled : Nat → Bool) : RunOutcome :=
  if shopifyDomain = "" ∨ accessToken = "" then
    { result := .error .configMissing, exportCalled := false,
      fileCreated := false, rows := [] }
  else
    match executeGraphQLQuery decode outcome with
    | .error e =>
      { result := .error (.queryFailed e), exportCalled := false,
        fileCreated := false, rows := [] }
    | .ok resp =>
      if resp.errors.length > 0 then
        { result := .error (.graphqlErrors resp.errors), exportCalled := false,
          fileCreated := false, rows := [] }
      else
        let ex := exportToCSV cancelled resp.data.customerSegmentMembers.edges p.output
        match ex.result with
        | .error e =>
          { result := .error (.exportFailed e), exportCalled := true,
            fileCreated := ex.fileCreated, rows := ex.rows }
        | .ok _ =>
          { result := .ok resp.data.customerSegmentMembers.edges.length,
            exportCalled := true, fileCreated := ex.fileCreated, rows := ex.rows }

/-! ## Sample values used by concrete witnesses -/

/-- The spec's scenario record: `{id:"gid://1", displayName:"Jane Doe",
email:none, amount:100, currency:"USD"}`. -/
def janeMember : CustomerSegmentMember :=
  ⟨⟨"gid://1", "Jane Doe", none, ⟨⟨100, 0⟩, "USD"⟩⟩⟩

/-- A record with an email present and a `.xx5` amount. -/
def johnMember : CustomerSegmentMember :=
  ⟨⟨"gid://2", "John Roe", some ⟨"john@example.com"⟩, ⟨⟨12345, -3⟩, "EUR"⟩⟩⟩

/-! ## Claims about the API client and the pipeline -/

/-- C1: if the decoded envelope's `applicationErrors` list is non-empty, the
pipeline fails with the GraphQLError failure carrying the error list
(`resp.Errors`, whose elements are the messages), and the records are never
handed to the CSV exporter (no export call, no rows written). -/
theorem graphql_errors_fail_without_export
    (shopifyDomain accessToken : String) (p : FetchParameters)
    (decode : List Char → Except String GraphQLResponse) (body : List Char)
    (resp : GraphQLResponse) (cancelled : Nat → Bool)
    (hd : shopifyDomain ≠ "") (ht : accessToken ≠ "")
    (hdec : decode body = .ok resp) (herr : resp.errors ≠ []) :
    (fetchAndExportCustomers shopifyDomain accessToken p decode
        (.gotResponse 200 body) cancelled).result = .error (.graphqlErrors resp.errors)
    ∧ (fetchAndExportCustomers shopifyDomain accessToken p decode
        (.gotResponse 200 body) cancelled).exportCalled = false
    ∧ (fetchAndExportCustomers shopifyDomain accessToken p decode
        (.gotResponse 200 body) cancelled).rows = [] := by
  have hlen : resp.errors.length > 0 := List.length_pos.mpr herr
  simp [fetchAndExportCustomers, executeGraphQLQuery, hd, ht, hdec, hlen]

/-- Witness for C1: a concrete run whose decoded envelope carries one
application error. -/
theorem graphql_errors_fail_without_export_witness :
    (fetchAndExportCustomers "shop.example.com" "token" ⟨50, "q", "amount_spent", true, "customers.csv"⟩
        (fun _ => .ok ⟨⟨⟨[janeMember]⟩⟩, [⟨"access denied"⟩]⟩)
        (.gotResponse 200 []) (fun _ => false)).result
      = .error (.graphqlErrors [⟨"access denied"⟩])
    ∧ (fetchAndExportCustomers "shop.example.com" "token" ⟨50, "q", "amount_spent", true, "customers.csv"⟩
        (fun _ => .ok ⟨⟨⟨[janeMember]⟩⟩, [⟨"access denied"⟩]⟩)
        (.gotResponse 200 []) (fun _ => false)).exportCalled = false
    ∧ (fetchAndExportCustomers "shop.example.com" "token" ⟨50, "q", "amount_spent", true, "customers.csv"⟩
        (fun _ => .ok ⟨⟨⟨[janeMember]⟩⟩, [⟨"access denied"⟩]⟩)
        (.gotResponse 200 []) (fun _ => false)).rows = [] :=
  graphql_errors_fail_without_export "shop.example.com" "token" _ _ []
    ⟨⟨⟨[janeMember]⟩⟩, [⟨"access denied"⟩]⟩ _ (by decide) (by decide) rfl (by decide)

/-- C2: every non-success HTTP status (outside `2xx`) makes `execute` fail
with the HttpError carrying the status code and the raw body unmodified; the
result does not depend on the JSON decoder (quantified over `decode`), so the
body is never decoded as GraphQL JSON. -/
theorem http_nonsuccess_yields_http_error
    (decode : List Char → Except String GraphQLResponse)
    (status : Nat) (body : List Char)
    (h : status < 200 ∨ 300 ≤ status) :
    executeGraphQLQuery decode (.gotResponse status body)
      = .error (.httpStatus status body) := by
  have hne : status ≠ 200 := by omega
  simp [executeGraphQLQuery, hne]

/-- Witness for C2: status 401 with body `"Unauthorized"` yields the
HttpError carrying 401 and exactly that body, for a decoder that always
fails (it is never consulted). -/
theorem http_nonsuccess_yields_http_error_witness :
    executeGraphQLQuery (fun _ => .error "decoder unused")
        (.gotResponse 401 ("Unauthorized" : String).data)
      = .error (.httpStatus 401 ("Unauthorized" : String).data) :=
  http_nonsuccess_yields_http_error _ 401 _ (by omega)

/-- C3: when the deadline elapses before a response is obtained (the
transport call fails with the context deadline exceeded), `execute` fails
with the Timeout error, and that error is distinct from the generic
transport-failure error whatever cause the latter carries. -/
theorem deadline_yields_timeout_not_transport
    (decode : List Char → Except String GraphQLResponse) (cause : String) :
    executeGraphQLQuery decode (.doFailed true cause) = .error .timeout
    ∧ ∀ c : String, ClientErr.timeout ≠ ClientErr.transportFailed c :=
  ⟨rfl, fun _ h => ClientErr.noConfusion h⟩

/-- C8: the variables mapping contains exactly the four expected keys, in
the order written in the source, and each value is the corresponding
`FetchParameters` field embedded unchanged (no transformation, no coercion
loss). -/
theorem variables_exactly_four_keys (p : FetchParameters) :
    ((buildVariables p).map Prod.fst = ["first", "query", "sortKey", "reverse"])
    ∧ (buildVariables p).lookup "first" = some (.intV p.first)
    ∧ (buildVariables p).lookup "query" = some (.strV p.query)
    ∧ (buildVariables p).lookup "sortKey" = some (.strV p.sortKey)
    ∧ (buildVariables p).lookup "reverse" = some (.boolV p.reverse) :=
  ⟨rfl, rfl, rfl, rfl, rfl⟩

/-- C10: on every failure that precedes the export phase — missing
configuration, or any client failure (timeout, transport, HTTP, decode), or
application-level GraphQL errors — the output file is never created and the
exporter is never invoked (and no rows are written). -/
theorem prefetch_failure_creates_no_file
    (shopifyDomain accessToken : String) (p : FetchParameters)
    (decode : List Char → Except String GraphQLResponse)
    (outcome : NetOutcome) (cancelled : Nat → Bool)
    (h : shopifyDomain = "" ∨ accessToken = ""
        ∨ (∃ e, executeGraphQLQuery decode outcome = .error e)
        ∨ ∃ resp, executeGraphQLQuery decode outcome = .ok resp ∧ resp.errors ≠ []) :
    (fetchAndExportCustomers shopifyDomain accessToken p decode outcome cancelled).fileCreated = false
    ∧ (fetchAndExportCustomers shopifyDomain accessToken p decode outcome cancelled).exportCalled = false
    ∧ (fetchAndExportCustomers shopifyDomain accessToken p decode outcome cancelled).rows = [] := by
  unfold fetchAndExportCustomers
  by_cases hc : shopifyDomain = "" ∨ accessToken = ""
  · simp [hc]
  · simp only [if_neg hc]
    rcases h with h | h | ⟨e, he⟩ | ⟨resp, hr, herr⟩
    · exact absurd (Or.inl h) hc
    · exact absurd (Or.inr h) hc
    · simp [he]
    · simp [hr, List.length_pos.mpr herr]

/-- Witness for C10: missing configuration (empty domain) with a timed-out
transport outcome creates no file. -/
theorem prefetch_failure_creates_no_file_witness :
    (fetchAndExportCustomers "" "token" ⟨50, "q", "amount_spent", true, "customers.csv"⟩
        (fun _ => .error "no decode") (.doFailed true "deadline") (fun _ => false)).fileCreated = false
    ∧ (fetchAndExportCustomers "" "token" ⟨50, "q", "amount_spent", true, "customers.csv"⟩
        (fun _ => .error "no decode") (.doFailed true "deadline") (fun _ => false)).exportCalled = false
    ∧ (fetchAndExportCustomers "" "token" ⟨50, "q", "amount_spent", true, "customers.csv"⟩
        (fun _ => .error "no decode") (.doFailed true "deadline") (fun _ => false)).rows = [] :=
  prefetch_failure_creates_no_file "" "token" _ _ _ _ (Or.inl rfl)

/-! ## Claims about the CSV exporter -/

/-- When no cancellation poll ever fires, the export loop writes every
record's row, in input order, and succeeds. -/
theorem exportLoop_no_cancel (cancelled : Nat → Bool)
    (hc : ∀ k, cancelled k = false) :
    ∀ (customers : List CustomerSegmentMember) (k : Nat),
      exportLoop cancelled customers k = (.ok (), customers.map recordRow) := by
  intro customers
  induction customers with
  | nil => intro k; rfl
  | cons c rest ih => intro k; simp [exportLoop, hc k, ih (k + 1)]

/-- If the first cancellation poll that fires is poll `i` (counting from the
poll made at start index `k`), and at least `i + 1` records remain, the loop
stops with the Cancelled error having written exactly the first `i` rows, in
order. -/
theorem exportLoop_cancel_at (cancelled : Nat → Bool) :
    ∀ (customers : List CustomerSegmentMember) (i k : Nat),
      (∀ j, j < i → cancelled (k + j) = false) → cancelled (k + i) = true →
      i < customers.length →
      exportLoop cancelled customers k
        = (.error .cancelled, (customers.take i).map recordRow) := by
  intro customers
  induction customers with
  | nil => intro i k _ _ hi; simp at hi
  | cons c rest ih =>
    intro i k hf hct hi
    cases i with
    | zero =>
      have h0 : cancelled k = true := by simpa using hct
      simp [exportLoop, h0]
    | succ i2 =>
      have h0 : cancelled k = false := by simpa using hf 0 (Nat.succ_pos _)
      have hf2 : ∀ j, j < i2 → cancelled (k + 1 + j) = false := by
        intro j hj
        have := hf (j + 1) (by omega)
        rwa [show k + 1 + j = k + (j + 1) by omega]
      have hct2 : cancelled (k + 1 + i2) = true := by
        rwa [show k + 1 + i2 = k + (i2 + 1) by omega]
      have hrec := ih i2 (k + 1) hf2 hct2 (by simpa using Nat.lt_of_succ_lt_succ hi)
      simp [exportLoop, h0, hrec]

/-- C6: export writes the fixed header row first, then one row per record
in input order with no re-sorting; an empty record list yields only the
header, and on an empty edges list the pipeline's success path reports a
count of 0. -/
theorem export_header_then_rows_in_order
    (cancelled : Nat → Bool) (hc : ∀ k, cancelled k = false)
    (customers : List CustomerSegmentMember) (filename : String)
    (shopifyDomain accessToken : String) (p : FetchParameters)
    (decode : List Char → Except String GraphQLResponse) (body : List Char)
    (resp : GraphQLResponse)
    (hd : shopifyDomain ≠ "") (ht : accessToken ≠ "")
    (hdec : decode body = .ok resp) (herr : resp.errors = [])
    (hedges : resp.data.customerSegmentMembers.edges = []) :
    (exportToCSV cancelled customers filename).rows
      = headerRow :: customers.map recordRow
    ∧ (exportToCSV cancelled [] filename).rows = [headerRow]
    ∧ (fetchAndExportCustomers shopifyDomain accessToken p decode
        (.gotResponse 200 body) cancelled).result = .ok 0 := by
  refine ⟨?_, ?_, ?_⟩
  · simp [exportToCSV, exportLoop_no_cancel cancelled hc]
  · simp [exportToCSV, exportLoop_no_cancel cancelled hc]
  · simp [fetchAndExportCustomers, executeGraphQLQuery, hd, ht, hdec, herr,
      hedges, exportToCSV, exportLoop]

/-- Witness for C6 at a concrete record list and a concrete empty-edges
pipeline run. -/
theorem export_header_then_rows_in_order_witness :
    (exportToCSV (fun _ => false) [janeMember, johnMember] "customers.csv").rows
      = headerRow :: [janeMember, johnMember].map recordRow
    ∧ (exportToCSV (fun _ => false) [] "customers.csv").rows = [headerRow]
    ∧ (fetchAndExportCustomers "shop.example.com" "token"
        ⟨50, "q", "amount_spent", true, "customers.csv"⟩
        (fun _ => .ok ⟨⟨⟨[]⟩⟩, []⟩) (.gotResponse 200 []) (fun _ => false)).result = .ok 0 :=
  export_header_then_rows_in_order (fun _ => false) (fun _ => rfl)
    [janeMember, johnMember] "customers.csv" "shop.example.com" "token"
    ⟨50, "q", "amount_spent", true, "customers.csv"⟩
    (fun _ => .ok ⟨⟨⟨[]⟩⟩, []⟩) [] ⟨⟨⟨[]⟩⟩, []⟩
    (by decide) (by decide) rfl rfl rfl

/-- C7: the cancellation signal is polled before each row; when the first
poll that fires is poll `i` and more records remain, export aborts with the
Cancelled error, the rows already written (the header and the first `i`
record rows, whole rows only) remain in the output, and no further row is
written. -/
theorem export_cancel_preserves_written_rows
    (cancelled : Nat → Bool) (customers : List CustomerSegmentMember)
    (filename : String) (i : Nat)
    (hf : ∀ j, j < i → cancelled j = false) (hct : cancelled i = true)
    (hi : i < customers.length) :
    (exportToCSV cancelled customers filename).result = .error .cancelled
    ∧ (exportToCSV cancelled customers filename).rows
        = headerRow :: (customers.take i).map recordRow := by
  have h := exportLoop_cancel_at cancelled customers i 0
    (fun j hj => by simpa using hf j hj) (by simpa using hct) hi
  simp [exportToCSV, h]

/-- Witness for C7: a signal that fires from poll 1 on, with two records:
the header and the first record's row are written, then export aborts. -/
theorem export_cancel_preserves_written_rows_witness :
    (exportToCSV (fun k => decide (1 ≤ k)) [janeMember, johnMember] "customers.csv").result
      = .error .cancelled
    ∧ (exportToCSV (fun k => decide (1 ≤ k)) [janeMember, johnMember] "customers.csv").rows
        = headerRow :: ([janeMember, johnMember].take 1).map recordRow :=
  export_cancel_preserves_written_rows (fun k => decide (1 ≤ k))
    [janeMember, johnMember] "customers.csv" 1 (by decide) (by decide) (by decide)

/-- C9: the cancellation check happens only before each data row, never
before the header: with the signal already expired at the first poll, the
output is exactly the header row, and the Cancelled error is returned
whenever there was at least one record (with no records the loop body never
runs, so the cancelled invocation still succeeds). -/
theorem export_cancelled_still_writes_header
    (cancelled : Nat → Bool) (customers : List CustomerSegmentMember)
    (filename : String) (h : cancelled 0 = true) :
    (exportToCSV cancelled customers filename).rows = [headerRow]
    ∧ (customers ≠ [] →
        (exportToCSV cancelled customers filename).result = .error .cancelled)
    ∧ (customers = [] →
        (exportToCSV cancelled customers filename).result = .ok ()) := by
  cases customers with
  | nil => simp [exportToCSV, exportLoop]
  | cons c rest => simp [exportToCSV, exportLoop, h]

/-- Witness for C9: an already-expired signal with one record still produces
the header line, then the Cancelled error. -/
theorem export_cancelled_still_writes_header_witness :
    (exportToCSV (fun _ => true) [janeMember] "customers.csv").rows = [headerRow]
    ∧ ([janeMember] ≠ ([] : List CustomerSegmentMember) →
        (exportToCSV (fun _ => true) [janeMember] "customers.csv").result = .error .cancelled)
    ∧ ([janeMember] = ([] : List CustomerSegmentMember) →
        (exportToCSV (fun _ => true) [janeMember] "customers.csv").result = .ok ()) :=
  export_cancelled_still_writes_header (fun _ => true) [janeMember] "customers.csv" rfl

/-! ## CSV text: `encoding/csv`'s writer, and a standard reader

`csv.Writer.Write` with the program's configuration (comma separator,
`UseCRLF=false`): a field is quoted when `fieldNeedsQuotes` says so, a quoted
field has its `"` doubled (with `UseCRLF=false`, `\r` and `\n` pass through
unchanged), fields are joined with commas, and the record ends with `\n`.

The reader is an RFC 4180 parser written here to state the spec's round-trip
property: records are split at unquoted `\n`, fields at unquoted `,`, and a
quoted field drops its enclosing quotes and collapses doubled quotes. -/

/-- Go's `unicode.IsSpace`: the `unicode.White_Space` property, a fixed set
of code points. -/
def goIsSpace (c : Char) : Bool :=
  let n := c.toNat
  (9 ≤ n && n ≤ 13) || n = 32 || n = 0x85 || n = 0xA0 || n = 0x1680 ||
  (0x2000 ≤ n && n ≤ 0x200A) || n = 0x2028 || n = 0x2029 || n = 0x202F ||
  n = 0x205F || n = 0x3000

/-- `csv.Writer.fieldNeedsQuotes` with `Comma = ','`: quote the literal
`\.`, any field containing a comma, a quote, a carriage return or a line
feed, and any field whose first character is a space. -/
def fieldNeedsQuotes (f : List Char) : Bool :=
  match f with
  | [] => false
  | c :: _ =>
    f = ['\\', '.'] || f.contains ',' || f.contains '"' ||
    f.contains '\r' || f.contains '\n' || goIsSpace c

/-- The quoted-field body written by `csv.Writer.Write` with
`UseCRLF=false`: each `"` becomes `""`, everything else is copied. -/
def escapeQuoted : List Char → List Char
  | [] => []
  | c :: rest =>
    if c = '"' then '"' :: '"' :: escapeQuoted rest
    else c :: escapeQuoted rest

/-- One encoded field: quoted and escaped when `fieldNeedsQuotes`, verbatim
otherwise. -/
def encodeField (f : List Char) : List Char :=
  if fieldNeedsQuotes f then '"' :: (escapeQuoted f ++ ['"']) else f

/-- One encoded record without its terminator: fields joined by commas. -/
def encodeLine : List (List Char) → List Char
  | [] => []
  | [f] => encodeField f
  | f :: r => encodeField f ++ ',' :: encodeLine r

/-- One encoded record with the `\n` terminator written by
`csv.Writer.Write` when `UseCRLF=false`. -/
def encodeRow (r : List (List Char)) : List Char :=
  encodeLine r ++ ['\n']

/-- The byte stream produced by writing each row in order. -/
def encodeCSV (rows : List (List (List Char))) : List Char :=
  (rows.map encodeRow).flatten

/-- Split a CSV text into raw records at unquoted `\n` (a `"` toggles the
in-quotes state; trailing data without a final terminator still forms a
record). -/
def splitRecordsAux : List Char → Bool → List Char → List (List Char)
  | [], _, acc => if acc = [] then [] else [acc.reverse]
  | c :: rest, q, acc =>
    if c = '\n' then
      if q then splitRecordsAux rest q (c :: acc)
      else acc.reverse :: splitRecordsAux rest false []
    else if c = '"' then splitRecordsAux rest (!q) (c :: acc)
    else splitRecordsAux rest q (c :: acc)

/-- Split a CSV text into raw records. -/
def splitRecords (cs : List Char) : List (List Char) :=
  splitRecordsAux cs false []

/-- Split one raw record into raw fields at unquoted commas. -/
def splitFieldsAux : List Char → Bool → List Char → List (List Char)
  | [], _, acc => [acc.reverse]
  | c :: rest, q, acc =>
    if c = ',' then
      if q then splitFieldsAux rest q (c :: acc)
      else acc.reverse :: splitFieldsAux rest false []
    else if c = '"' then splitFieldsAux rest (!q) (c :: acc)
    else splitFieldsAux rest q (c :: acc)

/-- Split one raw record into raw fields. -/
def splitFields (cs : List Char) : List (List Char) :=
  splitFieldsAux cs false []

/-- Collapse the doubled quotes of a quoted-field body. -/
def collapseQuotes : List Char → List Char
  | [] => []
  | [c] => [c]
  | c :: d :: rest =>
    if c = '"' ∧ d = '"' then '"' :: collapseQuotes rest
    else c :: collapseQuotes (d :: rest)

/-- Decode one raw field: a field opening with a quote drops its enclosing
quotes and collapses doubled quotes; anything else is verbatim. -/
def unescapeField : List Char → List Char
  | [] => []
  | c :: rest => if c = '"' then collapseQuotes rest.dropLast else c :: rest

/-- Parse a CSV text into records of fields. -/
def parseCSV (cs : List Char) : List (List (List Char)) :=
  (splitRecords cs).map fun line => (splitFields line).map unescapeField

example :
    parseCSV (encodeCSV [[['a'], ['b', '"', 'c'], []], [[','], ['\n'], ['x']]])
      = [[['a'], ['b', '"', 'c'], []], [[','], ['\n'], ['x']]] := by decide

/-! ### Round-trip lemmas: record splitting -/

/-- A field's contents as constrained by `fieldNeedsQuotes = false`. -/
theorem not_needsQuotes_contains (f : List Char) (h : fieldNeedsQuotes f = false) :
    f.contains ',' = false ∧ f.contains '"' = false ∧
    f.contains '\r' = false ∧ f.contains '\n' = false := by
  cases f with
  | nil => simp
  | cons c f =>
    simp only [fieldNeedsQuotes, Bool.or_eq_false_iff] at h
    exact ⟨h.1.1.1.1.2, h.1.1.1.2, h.1.1.2, h.1.2⟩

/-- Scanning the escaped body of a quoted field keeps the record machine in
the in-quotes state and only accumulates characters. -/
theorem splitRecordsAux_escape (f : List Char) :
    ∀ (rest acc : List Char),
      splitRecordsAux (escapeQuoted f ++ rest) true acc
        = splitRecordsAux rest true ((escapeQuoted f).reverse ++ acc) := by
  induction f with
  | nil => intro rest acc; simp [escapeQuoted]
  | cons c f ih =>
    intro rest acc
    by_cases hq : c = '"'
    · subst hq
      simp [escapeQuoted, splitRecordsAux, ih]
    · by_cases hn : c = '\n'
      · subst hn
        simp [escapeQuoted, splitRecordsAux, hq, ih]
      · simp [escapeQuoted, splitRecordsAux, hq, hn, ih]

/-- Scanning a chunk with no quote and no line feed, out of quotes, only
accumulates characters. -/
theorem splitRecordsAux_plain (f : List Char) (hn : f.contains '\n' = false)
    (hq : f.contains '"' = false) :
    ∀ (rest acc : List Char),
      splitRecordsAux (f ++ rest) false acc
        = splitRecordsAux rest false (f.reverse ++ acc) := by
  induction f with
  | nil => intro rest acc; simp
  | cons c f ih =>
    intro rest acc
    simp only [List.contains_cons, Bool.or_eq_false_iff, beq_eq_false_iff_ne] at hn hq
    simp [splitRecordsAux, Ne.symm hn.1, Ne.symm hq.1, ih hn.2 hq.2]

/-- Scanning one encoded field, out of quotes, only accumulates characters
and returns to the out-of-quotes state. -/
theorem splitRecordsAux_field (f : List Char) :
    ∀ (rest acc : List Char),
      splitRecordsAux (encodeField f ++ rest) false acc
        = splitRecordsAux rest false ((encodeField f).reverse ++ acc) := by
  intro rest acc
  by_cases hfq : fieldNeedsQuotes f
  · simp only [encodeField, if_pos hfq]
    simp [splitRecordsAux, List.append_assoc, splitRecordsAux_escape f]
  · have hc := not_needsQuotes_contains f (by simpa using hfq)
    simp only [encodeField, if_neg hfq]
    exact splitRecordsAux_plain f hc.2.2.2 hc.2.1 rest acc

/-- Scanning one encoded record line, out of quotes, only accumulates
characters and returns to the out-of-quotes state. -/
theorem splitRecordsAux_line (r : List (List Char)) :
    ∀ (rest acc : List Char),
      splitRecordsAux (encodeLine r ++ rest) false acc
        = splitRecordsAux rest false ((encodeLine r).reverse ++ acc) := by
  induction r with
  | nil => intro rest acc; simp [encodeLine]
  | cons f r ih =>
    intro rest acc
    cases r with
    | nil => simpa [encodeLine] using splitRecordsAux_field f rest acc
    | cons g r2 =>
      simp only [encodeLine, List.append_assoc, List.cons_append]
      rw [splitRecordsAux_field f]
      simp [splitRecordsAux, ih]

/-- Splitting the writer's output recovers each record's line. -/
theorem splitRecords_encode (rows : List (List (List Char))) :
    splitRecords (encodeCSV rows) = rows.map encodeLine := by
  unfold splitRecords
  induction rows with
  | nil => simp [encodeCSV, splitRecordsAux]
  | cons r rows ih =>
    simp only [encodeCSV, List.map_cons, List.flatten_cons, encodeRow,
      List.append_assoc, List.singleton_append]
    rw [splitRecordsAux_line r]
    simp [splitRecordsAux]
    exact ih

/-! ### Round-trip lemmas: field splitting and unescaping -/

/-- Scanning the escaped body of a quoted field keeps the field machine in
the in-quotes state and only accumulates characters. -/
theorem splitFieldsAux_escape (f : List Char) :
    ∀ (rest acc : List Char),
      splitFieldsAux (escapeQuoted f ++ rest) true acc
        = splitFieldsAux rest true ((escapeQuoted f).reverse ++ acc) := by
  induction f with
  | nil => intro rest acc; simp [escapeQuoted]
  | cons c f ih =>
    intro rest acc
    by_cases hq : c = '"'
    · subst hq
      simp [escapeQuoted, splitFieldsAux, ih]
    · by_cases hc : c = ','
      · subst hc
        simp [escapeQuoted, splitFieldsAux, hq, ih]
      · simp [escapeQuoted, splitFieldsAux, hq, hc, ih]

/-- Scanning a chunk with no quote and no comma, out of quotes, only
accumulates characters. -/
theorem splitFieldsAux_plain (f : List Char) (hc : f.contains ',' = false)
    (hq : f.contains '"' = false) :
    ∀ (rest acc : List Char),
      splitFieldsAux (f ++ rest) false acc
        = splitFieldsAux rest false (f.reverse ++ acc) := by
  induction f with
  | nil => intro rest acc; simp
  | cons c f ih =>
    intro rest acc
    simp only [List.contains_cons, Bool.or_eq_false_iff, beq_eq_false_iff_ne] at hc hq
    simp [splitFieldsAux, Ne.symm hc.1, Ne.symm hq.1, ih hc.2 hq.2]

/-- Scanning one encoded field, out of quotes, only accumulates characters
and returns to the out-of-quotes state. -/
theorem splitFieldsAux_field (f : List Char) :
    ∀ (rest acc : List Char),
      splitFieldsAux (encodeField f ++ rest) false acc
        = splitFieldsAux rest false ((encodeField f).reverse ++ acc) := by
  intro rest acc
  by_cases hfq : fieldNeedsQuotes f
  · simp only [encodeField, if_pos hfq]
    simp [splitFieldsAux, List.append_assoc, splitFieldsAux_escape f]
  · have hc := not_needsQuotes_contains f (by simpa using hfq)
    simp only [encodeField, if_neg hfq]
    exact splitFieldsAux_plain f hc.1 hc.2.1 rest acc

/-- Splitting one encoded record line recovers each encoded field. -/
theorem splitFields_encodeLine (r : List (List Char)) (h : r ≠ []) :
    splitFields (encodeLine r) = r.map encodeField := by
  unfold splitFields
  induction r with
  | nil => exact absurd rfl h
  | cons f r ih =>
    cases r with
    | nil =>
      have := splitFieldsAux_field f [] []
      simpa [encodeLine, splitFieldsAux] using this
    | cons g r2 =>
      simp only [encodeLine]
      rw [splitFieldsAux_field f]
      simp only [splitFieldsAux]
      simp [ih (by simp)]

/-- Collapsing undoes the writer's quote doubling. -/
theorem collapseQuotes_escape (f : List Char) :
    collapseQuotes (escapeQuoted f) = f := by
  induction f with
  | nil => rfl
  | cons c f ih =>
    by_cases hq : c = '"'
    · subst hq
      simp [escapeQuoted, collapseQuotes, ih]
    · simp only [escapeQuoted, if_neg hq]
      cases he : escapeQuoted f with
      | nil =>
        rw [he] at ih
        simp [collapseQuotes, ← ih]
      | cons d rest =>
        rw [he] at ih
        simp [collapseQuotes, hq, ih]

/-- Decoding one encoded field recovers the field. -/
theorem unescapeField_encodeField (f : List Char) :
    unescapeField (encodeField f) = f := by
  by_cases hfq : fieldNeedsQuotes f
  · simp only [encodeField, if_pos hfq, unescapeField]
    simp [collapseQuotes_escape]
  · have hc := not_needsQuotes_contains f (by simpa using hfq)
    simp only [encodeField, if_neg hfq]
    cases f with
    | nil => rfl
    | cons c fr =>
      have : c ≠ '"' := by
        have := hc.2.1
        simp only [List.contains_cons, Bool.or_eq_false_iff, beq_eq_false_iff_ne] at this
        exact Ne.symm this.1
      simp [unescapeField, this]

/-- Round-trip: parsing the writer's output recovers the rows exactly
(every row written by the program has five fields, hence is non-empty). -/
theorem parseCSV_encodeCSV (rows : List (List (List Char)))
    (h : ∀ r ∈ rows, r ≠ []) :
    parseCSV (encodeCSV rows) = rows := by
  unfold parseCSV
  rw [splitRecords_encode, List.map_map]
  have step : ∀ r ∈ rows,
      ((fun line => (splitFields line).map unescapeField) ∘ encodeLine) r = r := by
    intro r hr
    simp only [Function.comp_apply, splitFields_encodeLine r (h r hr), List.map_map]
    have : ∀ x ∈ r, (unescapeField ∘ encodeField) x = id x := fun x _ =>
      unescapeField_encodeField x
    rw [List.map_congr_left this, List.map_id]
  rw [List.map_congr_left step]
  simp

/-! ## C5: the round-trip claim -/

/-- Counterexample to C5 as stated: a record whose email is *present but
empty* (`defaultEmailAddress = some ⟨""⟩`). Exporting it and re-parsing the
CSV yields an empty email field in its row even though the record does have
an email, so the email field is not empty *exactly* when the record has no
email. -/
theorem csv_email_empty_iff_no_email_counterexample :
    ((parseCSV (encodeCSV ((exportToCSV (fun _ => false)
          [⟨⟨"gid://3", "No Address", some ⟨""⟩, ⟨⟨100, 0⟩, "USD"⟩⟩⟩]
          "customers.csv").rows)))[1]?.bind fun row => row[2]?) = some []
    ∧ (⟨⟨"gid://3", "No Address", some ⟨""⟩, ⟨⟨100, 0⟩, "USD"⟩⟩⟩
        : CustomerSegmentMember).node.defaultEmailAddress ≠ none := by
  constructor
  · decide
  · decide

/-- C5 (amended): exporting N records and re-parsing the CSV yields exactly
the N record rows after the header, in input order; the email field of row
`i` always equals the record's flattened email (the stored email when
present, empty otherwise), and it is the empty string exactly when the
record has no email **or its email is the empty string**. -/
theorem csv_roundtrip_email
    (cancelled : Nat → Bool) (hc : ∀ k, cancelled k = false)
    (customers : List CustomerSegmentMember) (filename : String)
    (i : Nat) (c : CustomerSegmentMember) (hic : customers[i]? = some c) :
    parseCSV (encodeCSV ((exportToCSV cancelled customers filename).rows))
      = headerRow :: customers.map recordRow
    ∧ (parseCSV (encodeCSV ((exportToCSV cancelled customers filename).rows))).length
        = customers.length + 1
    ∧ (parseCSV (encodeCSV ((exportToCSV cancelled customers filename).rows)))[i + 1]?
        = some (recordRow c)
    ∧ (recordRow c)[2]? = some (emailOf c).data
    ∧ ((emailOf c).data = [] ↔
        (c.node.defaultEmailAddress = none ∨ c.node.defaultEmailAddress = some ⟨""⟩)) := by
  have hrows : (exportToCSV cancelled customers filename).rows
      = headerRow :: customers.map recordRow := by
    simp [exportToCSV, exportLoop_no_cancel cancelled hc]
  have hne : ∀ r ∈ headerRow :: customers.map recordRow, r ≠ [] := by
    intro r hr
    rcases List.mem_cons.mp hr with h | h
    · subst h; simp [headerRow]
    · obtain ⟨c2, _, rfl⟩ := List.mem_map.mp h
      simp [recordRow]
  have hparse : parseCSV (encodeCSV ((exportToCSV cancelled customers filename).rows))
      = headerRow :: customers.map recordRow := by
    rw [hrows]; exact parseCSV_encodeCSV _ hne
  refine ⟨hparse, by rw [hparse]; simp, ?_, ?_, ?_⟩
  · rw [hparse]
    simp [List.getElem?_map, hic]
  · simp [recordRow]
  · cases hcase : c.node.defaultEmailAddress with
    | none => simp [emailOf, hcase]
    | some e =>
      cases e with
      | mk addr =>
        simp only [emailOf, hcase, Option.some.injEq, DefaultEmail.mk.injEq,
          reduceCtorEq, false_or]
        constructor
        · intro h
          exact String.ext (by simpa using h)
        · intro h
          rw [h]

/-- Witness for the amended C5 at a concrete two-record list, instantiated
at the second record (which has an email). -/
theorem csv_roundtrip_email_witness :
    parseCSV (encodeCSV ((exportToCSV (fun _ => false) [janeMember, johnMember] "customers.csv").rows))
      = headerRow :: [janeMember, johnMember].map recordRow
    ∧ (parseCSV (encodeCSV ((exportToCSV (fun _ => false) [janeMember, johnMember] "customers.csv").rows))).length
        = [janeMember, johnMember].length + 1
    ∧ (parseCSV (encodeCSV ((exportToCSV (fun _ => false) [janeMember, johnMember] "customers.csv").rows)))[1 + 1]?
        = some (recordRow johnMember)
    ∧ (recordRow johnMember)[2]? = some (emailOf johnMember).data
    ∧ ((emailOf johnMember).data = [] ↔
        (johnMember.node.defaultEmailAddress = none
          ∨ johnMember.node.defaultEmailAddress = some ⟨""⟩)) :=
  csv_roundtrip_email (fun _ => false) (fun _ => rfl) [janeMember, johnMember]
    "customers.csv" 1 johnMember (by decide)
